import Mathlib

set_option maxRecDepth 100000

/-
Verification development for the VLM DeepStream sampling/publishing core.

Shallow embedding of:
  - plugins/gst-dsexample/dsexample_lib/threadsafe_queue.h  (ThreadSafeQueue<T>)
  - plugins/gst-dsexample/gstdsexample.cpp                  (VLM block of
    gst_dsexample_transform_ip: rate limiter + push-with-eviction)
  - plugins/gst-dsexample/dsexample_lib/redis_client.h      (RedisClient,
    VLMRedisStreamManager)

Machine integers (guint, guint64, uint32_t) are modelled as Nat: none of the
verified paths can overflow 64-bit counters in any run the claims quantify
over, and the C++ uses unsigned arithmetic with no intentional wraparound.
-/

namespace TSQ

/-- State of a ThreadSafeQueue<T>: the std::queue contents front-first, and
the is_terminated_ flag.  The mutex and condition variable are represented by
making each member function one atomic step on this state. -/
structure TSQueue (α : Type) where
  items : List α
  terminated : Bool
deriving DecidableEq, Repr

/-- Embedding of ThreadSafeQueue::push: enqueue at the back (notify_one has no
state effect in the model). -/
def push (q : TSQueue α) (a : α) : TSQueue α :=
  { q with items := q.items ++ [a] }

/-- Embedding of ThreadSafeQueue::size: length of data_queue_. -/
def size (q : TSQueue α) : Nat :=
  q.items.length

/-- Embedding of bool-returning ThreadSafeQueue::try_pop: returns the front
element and the successor state; on an empty queue returns none and leaves the
state unchanged. -/
def try_pop (q : TSQueue α) : Option α × TSQueue α :=
  match q.items with
  | [] => (none, q)
  | a :: rest => (some a, { q with items := rest })

/-- Possible outcomes of the shared_ptr overload of wait_and_pop: the call can
block (condition not yet satisfied), return nullptr, or pop the front item. -/
inductive WaitPopResult (α : Type) where
  | blocks : WaitPopResult α
  | noneRes : TSQueue α → WaitPopResult α
  | popped : α → TSQueue α → WaitPopResult α
deriving DecidableEq, Repr

/-- Embedding of the shared_ptr overload of ThreadSafeQueue::wait_and_pop.
The condition variable waits for (not empty) or is_terminated_; once awake the
code tests is_terminated_ FIRST and returns nullptr without popping, otherwise
it pops the front.  If neither condition holds the call blocks. -/
def wait_and_pop (q : TSQueue α) : WaitPopResult α :=
  if q.terminated then WaitPopResult.noneRes q
  else
    match q.items with
    | [] => WaitPopResult.blocks
    | a :: rest => WaitPopResult.popped a { q with items := rest }

/-- Embedding of ThreadSafeQueue::terminate: set is_terminated_ (notify_all
has no state effect in the model). -/
def terminate (q : TSQueue α) : TSQueue α :=
  { q with terminated := true }

/-- Repeated try_pop, collecting the popped values in order; fuel bounds the
number of calls. -/
def drain : Nat → TSQueue α → List α
  | 0, _ => []
  | fuel + 1, q =>
    match try_pop q with
    | (none, _) => []
    | (some a, q1) => a :: drain fuel q1

/-- Repeated wait_and_pop, collecting popped values in order; stops on a
blocking or nullptr outcome; fuel bounds the number of calls. -/
def drainW : Nat → TSQueue α → List α
  | 0, _ => []
  | fuel + 1, q =>
    match wait_and_pop q with
    | WaitPopResult.popped a q1 => a :: drainW fuel q1
    | _ => []

lemma drain_items : ∀ (l : List α) (t : Bool), drain l.length ⟨l, t⟩ = l := by
  intro l
  induction l with
  | nil => intro t; rfl
  | cons a rest ih => intro t; simp [drain, try_pop, ih]

lemma drainW_items : ∀ (l : List α), drainW l.length ⟨l, false⟩ = l := by
  intro l
  induction l with
  | nil => rfl
  | cons a rest ih => simp [drainW, wait_and_pop, ih]

end TSQ

/-- C1: the claim states that wait_and_pop returns none exactly when the queue
has been terminated AND contains no items, and that it returns the front item
whenever one is present.  This is false of the code: the shared_ptr overload
of ThreadSafeQueue::wait_and_pop tests is_terminated_ before looking at the
queue, so on the state with items [0] and terminated = true it returns nullptr
even though an item is present. -/
theorem C1_counterexample :
    ¬ (∀ (q : TSQ.TSQueue Nat),
        TSQ.wait_and_pop q = TSQ.WaitPopResult.noneRes q ↔
          (q.terminated = true ∧ q.items = [])) := by
  intro h
  have h0 := (h ⟨[0], true⟩).mp rfl
  exact absurd h0.2 (by decide)

/-- C1 (amended): wait_and_pop returns none exactly when the queue has been
terminated, regardless of remaining items (queued items are abandoned); when
the queue is not terminated and at least one item is present it returns the
front item and removes it; after terminate() it never blocks. -/
theorem C1_amended :
    ∀ (q : TSQ.TSQueue Nat),
      (TSQ.wait_and_pop q = TSQ.WaitPopResult.noneRes q ↔ q.terminated = true) ∧
      (q.terminated = false → ∀ (a : Nat) (rest : List Nat), q.items = a :: rest →
        TSQ.wait_and_pop q = TSQ.WaitPopResult.popped a ⟨rest, false⟩) ∧
      TSQ.wait_and_pop (TSQ.terminate q) ≠ TSQ.WaitPopResult.blocks := by
  intro q
  obtain ⟨items, term⟩ := q
  cases term <;> cases items <;>
    simp [TSQ.wait_and_pop, TSQ.terminate]

/-- C1 amended claim witnessed on a concrete non-terminated two-item queue. -/
theorem C1_amended_witness :
    TSQ.wait_and_pop (⟨[5, 6], false⟩ : TSQ.TSQueue Nat) =
      TSQ.WaitPopResult.popped 5 ⟨[6], false⟩ :=
  (C1_amended ⟨[5, 6], false⟩).2.1 rfl 5 [6] rfl

/-- C10: terminate() only sets the terminated flag: the queued items, their
FIFO order and size() are unchanged, try_pop behaves on the terminated queue
exactly as on the original, and draining with try_pop still returns all
previously queued items in FIFO order. -/
theorem C10_terminate_frame :
    ∀ (q : TSQ.TSQueue Nat),
      (TSQ.terminate q).items = q.items ∧
      TSQ.size (TSQ.terminate q) = TSQ.size q ∧
      TSQ.try_pop (TSQ.terminate q) =
        ((TSQ.try_pop q).1, TSQ.terminate (TSQ.try_pop q).2) ∧
      TSQ.drain (TSQ.size q) (TSQ.terminate q) = q.items := by
  intro q
  obtain ⟨items, term⟩ := q
  refine ⟨rfl, rfl, ?_, ?_⟩
  · cases items <;> rfl
  · simpa [TSQ.terminate, TSQ.size] using TSQ.drain_items items true

namespace DSX

/-- Payload built in gst_dsexample_transform_ip for one admitted frame
(struct VLMFrameData; the code fills width 1920, height 1080, format "RGB",
and copies buf_pts, source_id, frame_num from the frame meta). -/
structure VLMFrameData where
  width : Nat
  height : Nat
  timestamp : Nat
  source_id : Nat
  frame_number : Nat
  format : String
deriving DecidableEq, Repr

/-- Fields of NvDsFrameMeta read by the VLM block of transform_ip. -/
structure FrameMeta where
  frame_num : Nat
  source_id : Nat
  buf_pts : Nat
deriving DecidableEq, Repr

/-- The VLMFrameData literal built inside the admitted branch of
gst_dsexample_transform_ip. -/
def mkVLMFrame (fm : FrameMeta) : VLMFrameData :=
  { width := 1920, height := 1080, timestamp := fm.buf_pts,
    source_id := fm.source_id, frame_number := fm.frame_num,
    format := "RGB" }

/-- Producer-side admit path of transform_ip, as a sequence of ThreadSafeQueue
calls: if size() >= vlm_queue_max_size then try_pop the oldest, then push. -/
def pushEvict (cap : Nat) (q : TSQ.TSQueue α) (a : α) : TSQ.TSQueue α :=
  let q1 := if cap ≤ TSQ.size q then (TSQ.try_pop q).2 else q
  TSQ.push q1 a

/-- List-level version of pushEvict, operating directly on the queue items. -/
def pushEvictL (cap : Nat) (q : List α) (a : α) : List α :=
  (if cap ≤ q.length then q.drop 1 else q) ++ [a]

/-- Per-instance state touched by the VLM block of transform_ip: the shared
vlm_frame_counter and the vlm_frame_queue. -/
structure PState where
  counter : Nat
  queue : TSQ.TSQueue VLMFrameData
deriving DecidableEq, Repr

/-- Body of the per-frame loop of the VLM block: with the batch counter
already incremented to c, an individual frame is admitted exactly when
c % vlm_frame_interval == 0; an admitted frame is turned into a VLMFrameData
and pushed through the evict-then-push path.  The second accumulator component
records the SampledEvents created. -/
def admitStep (interval cap c : Nat)
    (acc : TSQ.TSQueue VLMFrameData × List VLMFrameData) (fm : FrameMeta) :
    TSQ.TSQueue VLMFrameData × List VLMFrameData :=
  if c % interval == 0 then
    let ev := mkVLMFrame fm
    (pushEvict cap acc.1 ev, acc.2 ++ [ev])
  else acc

/-- The VLM block of gst_dsexample_transform_ip for one batch: increment
vlm_frame_counter once per batch, then iterate frame_meta_list.  Returns the
new state and the SampledEvents created for this batch. -/
def processBatch (interval cap : Nat) (s : PState) (batch : List FrameMeta) :
    PState × List VLMFrameData :=
  let c := s.counter + 1
  let r := batch.foldl (admitStep interval cap c) (s.queue, [])
  (⟨c, r.1⟩, r.2)

/-- A run of transform_ip over a sequence of batches, recording per batch the
list of SampledEvents created. -/
def runBatches (interval cap : Nat) (s : PState)
    (batches : List (List FrameMeta)) : PState × List (List VLMFrameData) :=
  batches.foldl
    (fun acc b =>
      let r := processBatch interval cap acc.1 b
      (r.1, acc.2 ++ [r.2]))
    (s, [])

lemma pushEvict_items (cap : Nat) (q : TSQ.TSQueue α) (a : α) :
    (pushEvict cap q a).items = pushEvictL cap q.items a ∧
    (pushEvict cap q a).terminated = q.terminated := by
  obtain ⟨items, term⟩ := q
  cases items with
  | nil => simp [pushEvict, pushEvictL, TSQ.push, TSQ.try_pop, TSQ.size]
  | cons b rest =>
    by_cases h : cap ≤ rest.length + 1 <;>
      simp [pushEvict, pushEvictL, TSQ.push, TSQ.try_pop, TSQ.size, h]

lemma foldl_pushEvict_items (cap : Nat) :
    ∀ (es : List α) (q : TSQ.TSQueue α),
      (List.foldl (pushEvict cap) q es).items =
        List.foldl (pushEvictL cap) q.items es ∧
      (List.foldl (pushEvict cap) q es).terminated = q.terminated := by
  intro es
  induction es with
  | nil => intro q; exact ⟨rfl, rfl⟩
  | cons a rest ih =>
    intro q
    have h := pushEvict_items cap q a
    have h2 := ih (pushEvict cap q a)
    simp only [List.foldl_cons]
    exact ⟨by rw [h2.1, h.1], by rw [h2.2, h.2]⟩

lemma pushEvictL_length_le (cap : Nat) (hcap : 1 ≤ cap) (q : List α) (a : α)
    (hq : q.length ≤ cap) : (pushEvictL cap q a).length ≤ cap := by
  unfold pushEvictL
  by_cases h : cap ≤ q.length <;> simp [h] <;> omega

lemma foldl_pushEvictL_length_le (cap : Nat) (hcap : 1 ≤ cap) :
    ∀ (es q : List α), q.length ≤ cap →
      (List.foldl (pushEvictL cap) q es).length ≤ cap := by
  intro es
  induction es with
  | nil => intro q hq; simpa using hq
  | cons a rest ih =>
    intro q hq
    simpa using ih (pushEvictL cap q a) (pushEvictL_length_le cap hcap q a hq)

lemma foldl_pushEvictL_drop (cap : Nat) (hcap : 1 ≤ cap) :
    ∀ (es q : List α), q.length ≤ cap →
      List.foldl (pushEvictL cap) q es =
        (q ++ es).drop (q.length + es.length - cap) := by
  intro es
  induction es with
  | nil =>
    intro q hq
    simp [Nat.sub_eq_zero_of_le hq]
  | cons a rest ih =>
    intro q hq
    simp only [List.foldl_cons]
    by_cases hfull : cap ≤ q.length
    · have hql : q.length = cap := le_antisymm hq hfull
      match q, hql with
      | b :: q1, hql =>
        have hfull1 : cap ≤ q1.length + 1 := by simpa using hfull
        have h1 : pushEvictL cap (b :: q1) a = q1 ++ [a] := by
          simp [pushEvictL, hfull1]
        have hlen : (q1 ++ [a]).length = cap := by
          simp at hql ⊢; omega
        rw [h1, ih (q1 ++ [a]) (le_of_eq hlen)]
        have hidx1 : (q1 ++ [a]).length + rest.length - cap = rest.length := by
          omega
        have hidx2 :
            (b :: q1).length + (a :: rest).length - cap = rest.length + 1 := by
          simp at hql ⊢; omega
        rw [hidx1, hidx2]
        simp
      | [], hql =>
        exfalso
        simp at hql
        omega
    · have h1 : pushEvictL cap q a = q ++ [a] := by
        simp [pushEvictL, hfull]
      rw [h1, ih (q ++ [a]) (by simp; omega)]
      have hidx : (q ++ [a]).length + rest.length - cap =
          q.length + (a :: rest).length - cap := by
        simp; omega
      rw [hidx]
      simp

lemma foldl_admitStep_admit (interval cap c : Nat) (h : c % interval == 0) :
    ∀ (batch : List FrameMeta) (q : TSQ.TSQueue VLMFrameData)
      (evs : List VLMFrameData),
      batch.foldl (admitStep interval cap c) (q, evs) =
        (List.foldl (pushEvict cap) q (batch.map mkVLMFrame),
         evs ++ batch.map mkVLMFrame) := by
  intro batch
  induction batch with
  | nil => intro q evs; simp
  | cons fm rest ih =>
    intro q evs
    simp only [List.foldl_cons, List.map_cons, admitStep, h, if_pos]
    rw [ih]
    simp

lemma foldl_admitStep_skip (interval cap c : Nat) (h : ¬ (c % interval == 0)) :
    ∀ (batch : List FrameMeta)
      (acc : TSQ.TSQueue VLMFrameData × List VLMFrameData),
      batch.foldl (admitStep interval cap c) acc = acc := by
  intro batch
  induction batch with
  | nil => intro acc; rfl
  | cons fm rest ih =>
    intro acc
    simp only [List.foldl_cons, admitStep, h, if_neg]
    exact ih acc

end DSX

/-- C2: the per-instance counter is incremented exactly once per batch (not
per source); a batch is admitted exactly when counter % interval == 0 with
interval >= 1; within an admitted batch one SampledEvent (VLMFrameData) is
created per source, and a non-admitted batch creates none and leaves the
queue untouched; concretely with interval = 30, counters 1..60 admit exactly
the batches at counter values 30 and 60. -/
theorem C2_rate_limiter :
    (∀ (interval cap counter : Nat) (q : TSQ.TSQueue DSX.VLMFrameData)
        (batch : List DSX.FrameMeta), 1 ≤ interval →
      (DSX.processBatch interval cap ⟨counter, q⟩ batch).1.counter =
          counter + 1 ∧
      ((counter + 1) % interval = 0 →
        (DSX.processBatch interval cap ⟨counter, q⟩ batch).2 =
          batch.map DSX.mkVLMFrame) ∧
      ((counter + 1) % interval ≠ 0 →
        (DSX.processBatch interval cap ⟨counter, q⟩ batch).2 = [] ∧
        (DSX.processBatch interval cap ⟨counter, q⟩ batch).1.queue = q)) ∧
    (DSX.runBatches 30 100 ⟨0, ⟨[], false⟩⟩
        (List.replicate 60 [⟨1, 2, 3⟩])).2.map List.isEmpty =
      (List.range 60).map (fun i => !((i + 1) % 30 == 0)) := by
  constructor
  · intro interval cap counter q batch hint
    refine ⟨rfl, ?_, ?_⟩
    · intro hadm
      have hb : (counter + 1) % interval == 0 := by simpa using hadm
      simp [DSX.processBatch, DSX.foldl_admitStep_admit interval cap
        (counter + 1) hb batch q []]
    · intro hskip
      have hb : ¬ ((counter + 1) % interval == 0) := by simpa using hskip
      simp [DSX.processBatch, DSX.foldl_admitStep_skip interval cap
        (counter + 1) hb batch (q, [])]
  · decide

/-- C2 witnessed at interval 30, counter 29, a two-source batch: the admitted
batch creates one SampledEvent per source. -/
theorem C2_rate_limiter_witness :
    (DSX.processBatch 30 100 ⟨29, ⟨[], false⟩⟩ [⟨1, 2, 3⟩, ⟨4, 5, 6⟩]).2 =
      List.map DSX.mkVLMFrame [⟨1, 2, 3⟩, ⟨4, 5, 6⟩] :=
  (C2_rate_limiter.1 30 100 29 ⟨[], false⟩ [⟨1, 2, 3⟩, ⟨4, 5, 6⟩]
    (by decide)).2.1 (by decide)

/-- C3: for capacity c >= 1, pushing n items through the producer-side admit
path (evict-oldest when full, then push) starting from an empty queue retains
exactly the last min(n, c) items in push order; absent overflow the retained
sequence equals the push sequence, and successive wait_and_pop calls on a
non-terminated queue return the items in FIFO order; concretely pushing items
1..150 with c = 100 retains items 51..150 and 100 pops return 51..150 in
order. -/
theorem C3_eviction_fifo :
    (∀ (cap : Nat), 1 ≤ cap → ∀ (es : List Nat),
      (List.foldl (DSX.pushEvict cap) (⟨[], false⟩ : TSQ.TSQueue Nat) es).items
        = es.drop (es.length - cap)) ∧
    (∀ (cap : Nat) (es : List Nat), 1 ≤ cap → es.length ≤ cap →
      (List.foldl (DSX.pushEvict cap) (⟨[], false⟩ : TSQ.TSQueue Nat) es).items
        = es) ∧
    (∀ (q : TSQ.TSQueue Nat), q.terminated = false →
      TSQ.drainW (TSQ.size q) q = q.items) ∧
    (List.foldl (DSX.pushEvict 100) (⟨[], false⟩ : TSQ.TSQueue Nat)
        ((List.range 150).map (· + 1))).items = (List.range 100).map (· + 51) ∧
    TSQ.drainW 100 (List.foldl (DSX.pushEvict 100)
        (⟨[], false⟩ : TSQ.TSQueue Nat) ((List.range 150).map (· + 1))) =
      (List.range 100).map (· + 51) := by
  have hgen : ∀ (cap : Nat), 1 ≤ cap → ∀ (es : List Nat),
      (List.foldl (DSX.pushEvict cap) (⟨[], false⟩ : TSQ.TSQueue Nat) es).items
        = es.drop (es.length - cap) := by
    intro cap hcap es
    rw [(DSX.foldl_pushEvict_items cap es ⟨[], false⟩).1]
    simpa using DSX.foldl_pushEvictL_drop cap hcap es []
      (by simp)
  refine ⟨hgen, ?_, ?_, ?_, ?_⟩
  · intro cap es hcap hlen
    rw [hgen cap hcap es, Nat.sub_eq_zero_of_le hlen]
    exact List.drop_zero es
  · intro q hq
    obtain ⟨items, term⟩ := q
    subst hq
    exact TSQ.drainW_items items
  · decide
  · decide

/-- C3 witnessed at capacity 2 with three pushes: items 2 and 3 are
retained. -/
theorem C3_eviction_fifo_witness :
    (List.foldl (DSX.pushEvict 2) (⟨[], false⟩ : TSQ.TSQueue Nat)
      [1, 2, 3]).items = [2, 3] :=
  C3_eviction_fifo.1 2 (by decide) [1, 2, 3]

/-- C4: for every configured capacity c >= 1 (the vlm-queue-size property has
range [1, 1000]) and every sequence of pushes through the producer-side admit
path starting from an empty queue, the queue size is at most c after every
push, i.e. after every prefix of the push sequence. -/
theorem C4_capacity_invariant :
    ∀ (cap : Nat), 1 ≤ cap → ∀ (es : List Nat) (k : Nat),
      TSQ.size (List.foldl (DSX.pushEvict cap)
        (⟨[], false⟩ : TSQ.TSQueue Nat) (es.take k)) ≤ cap := by
  intro cap hcap es k
  unfold TSQ.size
  rw [(DSX.foldl_pushEvict_items cap (es.take k) ⟨[], false⟩).1]
  exact DSX.foldl_pushEvictL_length_le cap hcap (es.take k) [] (by simp)

/-- C4 witnessed at capacity 1 after three pushes. -/
theorem C4_capacity_invariant_witness :
    TSQ.size (List.foldl (DSX.pushEvict 1)
      (⟨[], false⟩ : TSQ.TSQueue Nat) ([1, 2, 3].take 3)) ≤ 1 :=
  C4_capacity_invariant 1 (by decide) [1, 2, 3] 3

namespace RC

/-- Character-list prefix test used to model std::string::find. -/
def hasPrefixChars : List Char → List Char → Bool
  | [], _ => true
  | _ :: _, [] => false
  | a :: as, b :: bs => a == b && hasPrefixChars as bs

/-- Character-list substring test used to model std::string::find != npos. -/
def containsChars (needle : List Char) : List Char → Bool
  | [] => needle.isEmpty
  | b :: bs => hasPrefixChars needle (b :: bs) || containsChars needle bs

/-- Model of error.find(needle) != std::string::npos. -/
def strContains (hay needle : String) : Bool :=
  containsChars needle.toList hay.toList

/-- Model of std::stoull on the strings reachable here: the value of the
leading run of decimal digits, or none when the string has no leading digit,
in which case std::stoull throws std::invalid_argument.  Locale whitespace,
signs and overflow do not occur on the inputs the claims quantify over. -/
def stoull (s : String) : Option Nat :=
  let ds := s.toList.takeWhile Char.isDigit
  if ds.isEmpty then none
  else some (ds.foldl (fun n c => n * 10 + (c.toNat - 48)) 0)

/-- Characters of the id before the first dash, when the id contains a dash
(std::string::find of a dash followed by substr(0, dash_pos)). -/
def beforeDash (s : String) : Option String :=
  if s.toList.contains '-' then
    some (String.mk (s.toList.takeWhile (fun c => !(c == '-'))))
  else none

/-- Shape of a hiredis redisReply relevant to this client: string, integer,
status, error, array or nil; a null reply pointer is modelled as nil. -/
inductive RReply where
  | str : String → RReply
  | int : Int → RReply
  | status : String → RReply
  | err : String → RReply
  | arr : List RReply → RReply
  | nil : RReply

/-- Embedding of struct StreamMessage. -/
structure StreamMessage where
  id : String
  fields : List (String × String)
  timestamp : Nat
deriving DecidableEq, Repr

/-- Model of reading reply->str for a reply assumed by the code to be a bulk
string (the field loops read str/len without checking the reply type). -/
def strOfReply : RReply → String
  | RReply.str s => s
  | RReply.status s => s
  | RReply.err s => s
  | _ => ""

/-- Model of std::map<std::string, std::string> insertion via operator[]:
replace the value when the key is present, otherwise add the pair.  The
sorted iteration order of std::map is not modelled; no claim depends on
field order. -/
def mapSet (m : List (String × String)) (k v : String) :
    List (String × String) :=
  match m with
  | [] => [(k, v)]
  | (k1, v1) :: rest =>
    if k1 == k then (k, v) :: rest else (k1, v1) :: mapSet rest k v

/-- Field loop of RedisClient::parse_stream_message: pairs at indices
(i, i+1) with i stepping by 2; a trailing unpaired element is skipped. -/
def collectFieldsAux (acc : List (String × String)) :
    List RReply → List (String × String)
  | [] => acc
  | [_] => acc
  | k :: v :: rest =>
    collectFieldsAux (mapSet acc (strOfReply k) (strOfReply v)) rest

/-- Embedding of RedisClient::parse_stream_message.  A reply that is not an
array of at least two elements yields the empty message (id "").  When the
message id contains a dash, the code calls std::stoull on the part before the
dash; a non-numeric prefix makes stoull throw, modelled as Except.error. -/
def parse_stream_message (msg : RReply) : Except String StreamMessage :=
  match msg with
  | RReply.arr (e0 :: e1 :: _) => do
    let idTs ←
      match e0 with
      | RReply.str s =>
        match beforeDash s with
        | some pre =>
          match stoull pre with
          | none => Except.error "invalid_argument"
          | some t => Except.ok (s, t)
        | none => Except.ok (s, 0)
      | _ => Except.ok ("", 0)
    let flds :=
      match e1 with
      | RReply.arr es => collectFieldsAux [] es
      | _ => []
    Except.ok ⟨idTs.1, flds, idTs.2⟩
  | _ => Except.ok ⟨"", [], 0⟩

/-- Element loop of RedisClient::parse_xrange_reply: messages with empty id
are skipped; an exception from parse_stream_message propagates. -/
def parse_xrange_list : List RReply → Except String (List StreamMessage)
  | [] => Except.ok []
  | e :: rest => do
    let msg ← parse_stream_message e
    let others ← parse_xrange_list rest
    if msg.id == "" then Except.ok others else Except.ok (msg :: others)

/-- Embedding of RedisClient::parse_xrange_reply: a non-array (or null) reply
yields the empty list. -/
def parse_xrange_reply (reply : RReply) : Except String (List StreamMessage) :=
  match reply with
  | RReply.arr es => parse_xrange_list es
  | _ => Except.ok []

/-- Embedding of RedisClient::xrange: ensure_connected failing makes the
operation return the empty list; otherwise the server reply is parsed.  The
conn flag abstracts the outcome of ensure_connected (lazy reconnect). -/
def xrange (conn : Bool) (serverReply : RReply) :
    Except String (List StreamMessage) :=
  if conn then parse_xrange_reply serverReply else Except.ok []

/-- Embedding of the field map built by VLMRedisStreamManager::add_vlm_result.
The std::map initializer holds six distinct keys, listed here in the sorted
iteration order of std::map; now is the value of get_current_timestamp(),
the manager's own millisecond clock read at publish time. -/
def add_vlm_result_fields (frame_number source_id : Nat)
    (vlm_response model_name : String) (now : Nat) :
    List (String × String) :=
  [("frame_number", toString frame_number),
   ("model_name", model_name),
   ("source_id", toString source_id),
   ("timestamp", toString now),
   ("type", "vlm_result"),
   ("vlm_response", vlm_response)]

/-- Lookup in a field map, as StreamMessage::get_field does. -/
def get_field (fields : List (String × String)) (k : String) : Option String :=
  (fields.find? (fun p => p.1 == k)).map (fun p => p.2)

/-- Association-list lookup keyed by string (streams by name, groups by
name). -/
def lookupA (l : List (String × β)) (k : String) : Option β :=
  match l with
  | [] => none
  | (k1, v) :: rest => if k1 == k then some v else lookupA rest k

/-- Association-list update: replace the value at the key, or append. -/
def setA (l : List (String × β)) (k : String) (v : β) : List (String × β) :=
  match l with
  | [] => [(k, v)]
  | (k1, v1) :: rest =>
    if k1 == k then (k, v) :: rest else (k1, v1) :: setA rest k v

/-- Consumer group state on the server: the delivery cursor and the pending
entries list. -/
structure RGroup where
  last_delivered : String
  pending : List String
deriving DecidableEq, Repr

/-- Server-side stream state: appended entries and consumer groups. -/
structure RStream where
  entries : List (String × List (String × String))
  groups : List (String × RGroup)
deriving DecidableEq, Repr

/-- Server state: streams by name. -/
structure RServer where
  streams : List (String × RStream)
deriving DecidableEq, Repr

/-- Modelled from the spec: the Redis log server is an external collaborator
(the repository holds only the client); section 6 specifies
stream-group-create with idempotent create-if-missing semantics.  XGROUP
CREATE ... MKSTREAM creates the stream if missing; creating a group that
already exists returns a BUSYGROUP error and leaves the group (its cursor
included) untouched; otherwise the group is created with its cursor at
start_id and an empty pending list. -/
def srvXGroupCreate (srv : RServer) (stream group start : String) :
    RServer × RReply :=
  match lookupA srv.streams stream with
  | none =>
    (⟨setA srv.streams stream ⟨[], [(group, ⟨start, []⟩)]⟩⟩,
     RReply.status "OK")
  | some st =>
    match lookupA st.groups group with
    | some _ =>
      (srv, RReply.err "BUSYGROUP Consumer Group name already exists")
    | none =>
      (⟨setA srv.streams stream ⟨st.entries, setA st.groups group ⟨start, []⟩⟩⟩,
       RReply.status "OK")

/-- Embedding of RedisClient::xgroup_create: a status reply is success, an
error reply is success exactly when the error text contains BUSYGROUP, any
other reply is failure; ensure_connected failing returns false. -/
def xgroup_create (conn : Bool) (srv : RServer) (stream group start : String) :
    RServer × Bool :=
  if conn then
    let r := srvXGroupCreate srv stream group start
    let ok :=
      match r.2 with
      | RReply.status _ => true
      | RReply.err e => strContains e "BUSYGROUP"
      | _ => false
    (r.1, ok)
  else (srv, false)

/-- Modelled from the spec: Redis XACK (external collaborator, section 6
stream-ack).  It removes the id from the group's pending list and replies
with the number of ids removed: 1 when the id was pending, 0 when it was
already acknowledged, never delivered, or the group or stream is unknown.
Stream entries are never touched. -/
def srvXAck (srv : RServer) (stream group msgId : String) :
    RServer × RReply :=
  match lookupA srv.streams stream with
  | none => (srv, RReply.int 0)
  | some st =>
    match lookupA st.groups group with
    | none => (srv, RReply.int 0)
    | some g =>
      if g.pending.contains msgId then
        (⟨setA srv.streams stream
            ⟨st.entries,
             setA st.groups group ⟨g.last_delivered, g.pending.erase msgId⟩⟩⟩,
         RReply.int 1)
      else (srv, RReply.int 0)

/-- Embedding of RedisClient::xack: success is an integer reply with value
greater than zero; ensure_connected failing returns false. -/
def xack (conn : Bool) (srv : RServer) (stream group msgId : String) :
    RServer × Bool :=
  if conn then
    let r := srvXAck srv stream group msgId
    let ok :=
      match r.2 with
      | RReply.int n => decide (0 < n)
      | _ => false
    (r.1, ok)
  else (srv, false)

/-- Whether a record id is pending for a group at a server state. -/
def isPending (srv : RServer) (stream group msgId : String) : Bool :=
  match lookupA srv.streams stream with
  | none => false
  | some st =>
    match lookupA st.groups group with
    | none => false
    | some g => g.pending.contains msgId

/-- The records of every stream, forgetting consumer-group state: the view
that ack must not mutate. -/
def entriesView (srv : RServer) :
    List (String × List (String × List (String × String))) :=
  srv.streams.map (fun p => (p.1, p.2.entries))

lemma lookupA_setA_self (l : List (String × β)) (k : String) (v : β) :
    lookupA (setA l k v) k = some v := by
  induction l with
  | nil => simp [setA, lookupA]
  | cons p rest ih =>
    obtain ⟨k1, v1⟩ := p
    by_cases h : k1 == k
    · simp [setA, lookupA, h]
    · simp [setA, lookupA, h, ih]

lemma xgroup_create_existing (srv : RServer) (stream group start : String)
    (st : RStream) (g : RGroup)
    (h1 : lookupA srv.streams stream = some st)
    (h2 : lookupA st.groups group = some g) :
    xgroup_create true srv stream group start = (srv, true) := by
  simp only [xgroup_create, srvXGroupCreate, h1, h2, if_true]
  norm_num [show strContains "BUSYGROUP Consumer Group name already exists"
    "BUSYGROUP" = true from by decide]

lemma xgroup_create_creates (srv : RServer) (stream group start : String) :
    ∃ st g,
      lookupA (xgroup_create true srv stream group start).1.streams stream =
        some st ∧
      lookupA st.groups group = some g := by
  cases h1 : lookupA srv.streams stream with
  | none =>
    refine ⟨⟨[], [(group, ⟨start, []⟩)]⟩, ⟨start, []⟩, ?_, ?_⟩
    · simp only [xgroup_create, srvXGroupCreate, h1, if_true]
      exact lookupA_setA_self srv.streams stream _
    · simp [lookupA]
  | some st =>
    cases h2 : lookupA st.groups group with
    | some g =>
      refine ⟨st, g, ?_, h2⟩
      rw [xgroup_create_existing srv stream group start st g h1 h2]
      exact h1
    | none =>
      refine ⟨⟨st.entries, setA st.groups group ⟨start, []⟩⟩, ⟨start, []⟩,
        ?_, ?_⟩
      · simp only [xgroup_create, srvXGroupCreate, h1, h2, if_true]
        exact lookupA_setA_self srv.streams stream _
      · exact lookupA_setA_self st.groups group _

lemma entriesView_setA (l : List (String × RStream)) (k : String)
    (st st1 : RStream) (h : lookupA l k = some st)
    (he : st1.entries = st.entries) :
    (setA l k st1).map (fun p => (p.1, p.2.entries)) =
      l.map (fun p => (p.1, p.2.entries)) := by
  induction l with
  | nil => simp [lookupA] at h
  | cons p rest ih =>
    obtain ⟨k1, v1⟩ := p
    by_cases hk : k1 == k
    · have hkeq : k1 = k := eq_of_beq hk
      simp only [lookupA, hk, if_true, Option.some.injEq] at h
      subst h
      simp [setA, hk, he, hkeq]
    · simp only [lookupA, hk, Bool.false_eq_true, if_false] at h
      simp [setA, hk, ih h]

end RC

/-- C5: the claim states that the record appended by
publishResult / add_vlm_result carries a record-type tag equal to "result".
This is false of the code: VLMRedisStreamManager::add_vlm_result sets the
type field to "vlm_result", shown here at a concrete call. -/
theorem C5_counterexample :
    RC.get_field (RC.add_vlm_result_fields 12 3 "a person" "deepstream_vlm_v1"
      1700000000000) "type" ≠ some "result" := by
  decide

/-- C5 (amended): the record appended by add_vlm_result carries the four
caller-supplied fields (frame number, source id, payload, model tag) plus a
timestamp field assigned by the stream manager from its own clock at publish
time (not supplied by the caller) and a record-type tag equal to
"vlm_result". -/
theorem C5_amended :
    ∀ (fn sid : Nat) (resp model : String) (now : Nat),
      RC.get_field (RC.add_vlm_result_fields fn sid resp model now)
          "frame_number" = some (toString fn) ∧
      RC.get_field (RC.add_vlm_result_fields fn sid resp model now)
          "source_id" = some (toString sid) ∧
      RC.get_field (RC.add_vlm_result_fields fn sid resp model now)
          "vlm_response" = some resp ∧
      RC.get_field (RC.add_vlm_result_fields fn sid resp model now)
          "model_name" = some model ∧
      RC.get_field (RC.add_vlm_result_fields fn sid resp model now)
          "timestamp" = some (toString now) ∧
      RC.get_field (RC.add_vlm_result_fields fn sid resp model now)
          "type" = some "vlm_result" := by
  intro fn sid resp model now
  exact ⟨rfl, rfl, rfl, rfl, rfl, rfl⟩

/-- C6: the connection-failure half of the claim does hold (a failed
reconnect makes xrange return the empty list), but the no-exception half is
false: on a reply containing a message whose id has a non-numeric prefix
before the dash, parse_stream_message calls std::stoull on that prefix, which
throws std::invalid_argument, and the exception propagates out of the
operation instead of degrading to an empty result. -/
theorem C6_malformed_reply_raises :
    RC.xrange true (RC.RReply.arr [RC.RReply.arr
        [RC.RReply.str "abc-0",
         RC.RReply.arr [RC.RReply.str "k", RC.RReply.str "v"]]]) =
      Except.error "invalid_argument" ∧
    (∀ (r : RC.RReply), RC.xrange false r = Except.ok []) := by
  exact ⟨rfl, fun r => rfl⟩

/-- C7: group creation is idempotent: calling xgroup_create when the group
already exists returns success (the BUSYGROUP error is treated as success)
and leaves the server state, the group's delivery cursor included,
unchanged; in particular calling it twice in a row succeeds the second time
without resetting anything the first call established. -/
theorem C7_group_create_idempotent :
    (∀ (srv : RC.RServer) (stream group start : String) (st : RC.RStream)
        (g : RC.RGroup),
      RC.lookupA srv.streams stream = some st →
      RC.lookupA st.groups group = some g →
      RC.xgroup_create true srv stream group start = (srv, true)) ∧
    (∀ (srv : RC.RServer) (stream group start start1 : String),
      RC.xgroup_create true (RC.xgroup_create true srv stream group start).1
          stream group start1 =
        ((RC.xgroup_create true srv stream group start).1, true)) := by
  constructor
  · intro srv stream group start st g h1 h2
    exact RC.xgroup_create_existing srv stream group start st g h1 h2
  · intro srv stream group start start1
    obtain ⟨st, g, h1, h2⟩ := RC.xgroup_create_creates srv stream group start
    exact RC.xgroup_create_existing _ stream group start1 st g h1 h2

/-- C7 witnessed on a concrete server that already holds the group: the call
returns true and the state, cursor included, is unchanged. -/
theorem C7_group_create_idempotent_witness :
    RC.xgroup_create true ⟨[("s", ⟨[], [("g", ⟨"5-1", []⟩)]⟩)]⟩ "s" "g" "0" =
      (⟨[("s", ⟨[], [("g", ⟨"5-1", []⟩)]⟩)]⟩, true) :=
  C7_group_create_idempotent.1 ⟨[("s", ⟨[], [("g", ⟨"5-1", []⟩)]⟩)]⟩
    "s" "g" "0" ⟨[], [("g", ⟨"5-1", []⟩)]⟩ ⟨"5-1", []⟩ rfl rfl

/-- C8: xack returns true exactly when the record was pending for that group
at the time of the call (false when already acknowledged, never delivered,
or the group or stream is unknown), and it never mutates the stream records
themselves. -/
theorem C8_ack_semantics :
    ∀ (srv : RC.RServer) (stream group msgId : String),
      (RC.xack true srv stream group msgId).2 =
        RC.isPending srv stream group msgId ∧
      RC.entriesView (RC.xack true srv stream group msgId).1 =
        RC.entriesView srv := by
  intro srv stream group msgId
  cases h1 : RC.lookupA srv.streams stream with
  | none => simp [RC.xack, RC.srvXAck, RC.isPending, h1]
  | some st =>
    cases h2 : RC.lookupA st.groups group with
    | none => simp [RC.xack, RC.srvXAck, RC.isPending, h1, h2]
    | some g =>
      by_cases hp : msgId ∈ g.pending
      · have hview := RC.entriesView_setA srv.streams stream st
          ⟨st.entries, RC.setA st.groups group
            ⟨g.last_delivered, g.pending.erase msgId⟩⟩ h1 rfl
        simp [RC.xack, RC.srvXAck, RC.isPending, RC.entriesView, h1, h2, hp,
          hview]
      · simp [RC.xack, RC.srvXAck, RC.isPending, h1, h2, hp]

namespace CONC

/-- Atomic ThreadSafeQueue calls issued against the shared vlm_frame_queue by
the producer path of transform_ip and by any concurrent thread: size(),
try_pop into a discarded variable, and push.  Each call holds the queue mutex
for its own duration only. -/
inductive QAction where
  | readSize : QAction
  | tryPopDrop : QAction
  | push : Nat → QAction
deriving DecidableEq, Repr

/-- Execution of a schedule of atomic queue calls from an initial queue
content, returning the final queue and the list of values observed by the
size() calls, in schedule order. -/
def runActions : List Nat → List QAction → List Nat × List Nat
  | q, [] => (q, [])
  | q, QAction.readSize :: rest =>
    let r := runActions q rest
    (r.1, q.length :: r.2)
  | q, QAction.tryPopDrop :: rest => runActions (q.drop 1) rest
  | q, QAction.push v :: rest => runActions (q ++ [v]) rest

end CONC

/-- C9: the claim states that the producer-side size-check / evict / push
sequence of transform_ip is atomic with respect to concurrent pops and size
queries.  It is not: the three steps are three separately-locked
ThreadSafeQueue calls.  With capacity 1 and queue content [7], the producer
runs size() (observes 1, decides to evict), try_pop, push 8.  A concurrent
size() scheduled between the evict and the push observes 0 items — a state no
serialized execution exhibits: scheduling the same size() before or after the
whole sequence observes 1 in both cases. -/
theorem C9_not_atomic :
    (CONC.runActions [7] [CONC.QAction.readSize, CONC.QAction.tryPopDrop,
        CONC.QAction.readSize, CONC.QAction.push 8]).2 = [1, 0] ∧
    (CONC.runActions [7] [CONC.QAction.readSize, CONC.QAction.readSize,
        CONC.QAction.tryPopDrop, CONC.QAction.push 8]).2 = [1, 1] ∧
    (CONC.runActions [7] [CONC.QAction.readSize, CONC.QAction.tryPopDrop,
        CONC.QAction.push 8, CONC.QAction.readSize]).2 = [1, 1] ∧
    (CONC.runActions [7] [CONC.QAction.readSize, CONC.QAction.tryPopDrop,
        CONC.QAction.readSize, CONC.QAction.push 8]).1 = [8] ∧
    (0 : Nat) ≠ 1 := by
  decide
